import Mathlib

/-!
Shallow embedding of the constraint data model of `src/lib/Sema/Constraint.h`
(the `swift::constraints::Constraint` class of a constraint-based type checker)
and of the lazy-map iterator/sequence of `src/unnamed/part_000` (`Map.swift.gyb`).

Opaque collaborator types (`Type`, `Identifier`, `OverloadChoice`,
`ConstraintLocator *`) are embedded as concrete carriers so that everything is
executable: a Swift `Type` and an `OverloadChoice` become `Nat`, an
`Identifier` becomes `String` (empty string = empty identifier), and a
`ConstraintLocator *` pointer becomes `Option Nat` with `none` playing the
null pointer.
-/

/-- Swift `Type` values, opaque to this header; embedded as `Nat`. -/
abbrev SType := Nat

/-- Swift `Identifier`; embedded as `String`, with `""` the empty identifier. -/
abbrev Identifier := String

/-- Swift `OverloadChoice` values, opaque to this header; embedded as `Nat`. -/
abbrev OverloadChoice := Nat

/-- A `ConstraintLocator *` pointer: `none` is the null pointer. -/
abbrev LocatorPtr := Option Nat

/-- The fourteen atomic and two grouping constraint kinds of
`enum class ConstraintKind` (Constraint.h lines 42-90), in declaration order. -/
inductive ConstraintKind : Type where
  | Bind
  | Equal
  | TrivialSubtype
  | Subtype
  | Conversion
  | Construction
  | ConformsTo
  | ApplicableFunction
  | BindOverload
  | ValueMember
  | TypeMember
  | Archetype
  | Class
  | DynamicLookupValue
  | Conjunction
  | Disjunction
deriving DecidableEq, BEq, Repr

/-- The five-way `enum class ConstraintClassification` (Constraint.h lines
93-109). -/
inductive ConstraintClassification : Type where
  | Relational
  | Member
  | TypeProperty
  | Conjunction
  | Disjunction
deriving DecidableEq, BEq, Repr

/-- The anonymous storage union of `Constraint` (Constraint.h lines 116-139):
exactly one arm is active at a time, selected by the constructor that built
the object.  The parameter `χ` stands for the child-constraint reference type
of the `Nested` arm. -/
inductive PayloadOf (χ : Type) : Type where
  /-- The `Types` arm: `First`, `Second` and the member `Identifier`. -/
  | types : SType → SType → Identifier → PayloadOf χ
  /-- The `Nested` arm: `ArrayRef<Constraint *>` of a conjunction or
  disjunction. -/
  | nested : List χ → PayloadOf χ
  /-- The `Overload` arm: `First` and the `OverloadChoice`. -/
  | overload : SType → OverloadChoice → PayloadOf χ

/-- The `Constraint` object: a kind tag, the storage union and the
`ConstraintLocator *` field (Constraint.h lines 112-143). -/
inductive Constraint : Type where
  | mk : ConstraintKind → PayloadOf Constraint → LocatorPtr → Constraint

/-- Result of calling an accessor method: `assertionFailure` when the method's
`assert` fires, `undefinedRead` when the method reads a union arm that the
object's constructor did not make active (undefined behavior in the C++
source), and `value` for a well-defined return. -/
inductive AccessResult (α : Type) : Type where
  | assertionFailure : AccessResult α
  | undefinedRead : AccessResult α
  | value : α → AccessResult α
deriving DecidableEq, BEq, Repr

namespace Constraint

/-- The raw kind field of a constraint. -/
def kindOf : Constraint → ConstraintKind
  | .mk k _ _ => k

/-- The raw storage union of a constraint. -/
def payloadOf : Constraint → PayloadOf Constraint
  | .mk _ p _ => p

/-- The raw locator field of a constraint. -/
def locatorOf : Constraint → LocatorPtr
  | .mk _ _ l => l

/-- `Constraint::getKind` (Constraint.h line 176): returns the kind field. -/
def getKind (c : Constraint) : ConstraintKind := c.kindOf

/-- The switch body of `Constraint::getClassification` (Constraint.h lines
180-208), a function of the kind alone.  Note: the source's
`case ConstraintKind::Conjunction` branch (line 202) returns
`ConstraintClassification::Disjunction` (line 203); this embedding reproduces
the source exactly. -/
def classifyKind : ConstraintKind → ConstraintClassification
  | .Bind => ConstraintClassification.Relational
  | .Equal => ConstraintClassification.Relational
  | .TrivialSubtype => ConstraintClassification.Relational
  | .Subtype => ConstraintClassification.Relational
  | .Conversion => ConstraintClassification.Relational
  | .Construction => ConstraintClassification.Relational
  | .ConformsTo => ConstraintClassification.Relational
  | .ApplicableFunction => ConstraintClassification.Relational
  | .BindOverload => ConstraintClassification.Relational
  | .ValueMember => ConstraintClassification.Member
  | .TypeMember => ConstraintClassification.Member
  | .Archetype => ConstraintClassification.TypeProperty
  | .Class => ConstraintClassification.TypeProperty
  | .DynamicLookupValue => ConstraintClassification.TypeProperty
  | .Conjunction => ConstraintClassification.Disjunction
  | .Disjunction => ConstraintClassification.Disjunction

/-- `Constraint::getClassification` (Constraint.h lines 180-208). -/
def getClassification (c : Constraint) : ConstraintClassification :=
  classifyKind c.getKind

/-- `Constraint::getFirstType` (Constraint.h lines 211-219): asserts the kind
is neither `Disjunction` nor `Conjunction`; for `BindOverload` it returns
`Overload.First`, otherwise it returns `Types.First`. -/
def getFirstType (c : Constraint) : AccessResult SType :=
  if c.getKind = ConstraintKind.Disjunction ∨ c.getKind = ConstraintKind.Conjunction then
    AccessResult.assertionFailure
  else if c.getKind = ConstraintKind.BindOverload then
    match c.payloadOf with
    | PayloadOf.overload t _ => AccessResult.value t
    | _ => AccessResult.undefinedRead
  else
    match c.payloadOf with
    | PayloadOf.types t _ _ => AccessResult.value t
    | _ => AccessResult.undefinedRead

/-- `Constraint::getSecondType` (Constraint.h lines 222-226): asserts the kind
is neither `Disjunction` nor `Conjunction`, then returns `Types.Second`
unconditionally — including on a `BindOverload` object, whose active union arm
is `Overload`, where the read is undefined. -/
def getSecondType (c : Constraint) : AccessResult SType :=
  if c.getKind = ConstraintKind.Disjunction ∨ c.getKind = ConstraintKind.Conjunction then
    AccessResult.assertionFailure
  else
    match c.payloadOf with
    | PayloadOf.types _ s _ => AccessResult.value s
    | _ => AccessResult.undefinedRead

/-- `Constraint::getMember` (Constraint.h lines 232-236): asserts the kind is
`ValueMember` or `TypeMember`, then returns `Types.Member`. -/
def getMember (c : Constraint) : AccessResult Identifier :=
  if c.getKind = ConstraintKind.ValueMember ∨ c.getKind = ConstraintKind.TypeMember then
    match c.payloadOf with
    | PayloadOf.types _ _ m => AccessResult.value m
    | _ => AccessResult.undefinedRead
  else
    AccessResult.assertionFailure

/-- `Constraint::hasMember` (Constraint.h lines 239-242). -/
def hasMember (kind : ConstraintKind) : Bool :=
  kind == ConstraintKind.ValueMember || kind == ConstraintKind.TypeMember

/-- `Constraint::getNestedConstraints` (Constraint.h lines 245-249): asserts
the kind is `Conjunction` or `Disjunction`, then returns `Nested`. -/
def getNestedConstraints (c : Constraint) : AccessResult (List Constraint) :=
  if c.getKind = ConstraintKind.Conjunction ∨ c.getKind = ConstraintKind.Disjunction then
    match c.payloadOf with
    | PayloadOf.nested cs => AccessResult.value cs
    | _ => AccessResult.undefinedRead
  else
    AccessResult.assertionFailure

/-- `Constraint::getOverloadChoice` (Constraint.h lines 252-255): asserts the
kind is `BindOverload`, then returns `Overload.Choice`. -/
def getOverloadChoice (c : Constraint) : AccessResult OverloadChoice :=
  if c.getKind = ConstraintKind.BindOverload then
    match c.payloadOf with
    | PayloadOf.overload _ ch => AccessResult.value ch
    | _ => AccessResult.undefinedRead
  else
    AccessResult.assertionFailure

/-- `Constraint::getLocator` (Constraint.h line 258): returns the locator
field, whatever it is — there is no assertion and no null check. -/
def getLocator (c : Constraint) : LocatorPtr := c.locatorOf

/-- The private group constructor (Constraint.h lines 149-154): stores the
kind, the nested list and the locator, asserting that the kind is
`Conjunction` or `Disjunction`.  It performs no other check: in particular it
accepts an empty list and a null locator. -/
def mkGroupCtor (kind : ConstraintKind) (nested : List Constraint)
    (locator : LocatorPtr) : Option Constraint :=
  if kind = ConstraintKind.Conjunction ∨ kind = ConstraintKind.Disjunction then
    some (Constraint.mk kind (PayloadOf.nested nested) locator)
  else
    none

/-- The inline overload-binding constructor (Constraint.h lines 161-163):
stores kind `BindOverload`, the `Overload` union arm and the locator.  It is
total: it contains no assertion, so it accepts a null locator. -/
def mkBindOverload (t : SType) (choice : OverloadChoice)
    (locator : LocatorPtr) : Constraint :=
  Constraint.mk ConstraintKind.BindOverload (PayloadOf.overload t choice) locator

/-- Modelled from the spec: the out-of-line atomic constructor
`Constraint::Constraint(ConstraintKind, Type, Type, Identifier,
ConstraintLocator *)` is only declared in the header (Constraint.h line 157);
its body lives in a translation unit that is not part of the sources.  Per the
spec (§3 payload shapes and §4.1 construction contract) it stores the
arguments in the `Types` union arm, is reserved for the atomic kinds (the
group kinds use the nested-list constructor and `BindOverload` its own
constructor), and asserts a non-null locator and, for the member kinds, a
non-empty member name. -/
def mkAtomic (kind : ConstraintKind) (first second : SType) (member : Identifier)
    (locator : LocatorPtr) : Option Constraint :=
  if kind = ConstraintKind.Conjunction ∨ kind = ConstraintKind.Disjunction ∨
      kind = ConstraintKind.BindOverload then
    none
  else if locator = none then
    none
  else if hasMember kind && member == "" then
    none
  else
    some (Constraint.mk kind (PayloadOf.types first second member) locator)

/-- Modelled from the spec: the body of `Constraint::createConjunction`
(declared at Constraint.h lines 166-168, body not in the sources).  Per the
spec (§4.2) it "allocates a group constraint over an already-allocated,
non-empty child list; fails (assertion) on an empty list", delegating to the
group constructor with kind `Conjunction`. -/
def createConjunction (cs : List Constraint) (locator : LocatorPtr) :
    Option Constraint :=
  if cs.isEmpty then none else mkGroupCtor ConstraintKind.Conjunction cs locator

/-- Modelled from the spec: the body of `Constraint::createDisjunction`
(declared at Constraint.h lines 171-173, body not in the sources).  Per the
spec (§4.2) it "allocates a group constraint over an already-allocated,
non-empty child list; fails (assertion) on an empty list", delegating to the
group constructor with kind `Disjunction`. -/
def createDisjunction (cs : List Constraint) (locator : LocatorPtr) :
    Option Constraint :=
  if cs.isEmpty then none else mkGroupCtor ConstraintKind.Disjunction cs locator

end Constraint

/-- Classification table of spec §4.1, written from the spec's words alone,
for comparison with the source's `classifyKind`: the table row for
`Conjunction` reads "all nested constraints must hold | Conjunction". -/
def specTableClassification : ConstraintKind → ConstraintClassification
  | .Bind => ConstraintClassification.Relational
  | .Equal => ConstraintClassification.Relational
  | .TrivialSubtype => ConstraintClassification.Relational
  | .Subtype => ConstraintClassification.Relational
  | .Conversion => ConstraintClassification.Relational
  | .Construction => ConstraintClassification.Relational
  | .ConformsTo => ConstraintClassification.Relational
  | .ApplicableFunction => ConstraintClassification.Relational
  | .BindOverload => ConstraintClassification.Relational
  | .ValueMember => ConstraintClassification.Member
  | .TypeMember => ConstraintClassification.Member
  | .Archetype => ConstraintClassification.TypeProperty
  | .Class => ConstraintClassification.TypeProperty
  | .DynamicLookupValue => ConstraintClassification.TypeProperty
  | .Conjunction => ConstraintClassification.Conjunction
  | .Disjunction => ConstraintClassification.Disjunction

/-- The eight accessor methods of `Constraint` (Constraint.h lines 176-258),
as a syntactic enumeration for the frame property: every one of them is a
`const` method. -/
inductive Accessor : Type where
  | getKind
  | getClassification
  | getFirstType
  | getSecondType
  | getMember
  | getNestedConstraints
  | getOverloadChoice
  | getLocator
deriving DecidableEq, Repr

/-- The common codomain of the accessor methods, for stating the frame
property over all of them at once. -/
inductive Observed : Type where
  | kind : ConstraintKind → Observed
  | classif : ConstraintClassification → Observed
  | ty : AccessResult SType → Observed
  | member : AccessResult Identifier → Observed
  | nestedList : AccessResult (List Constraint) → Observed
  | choice : AccessResult OverloadChoice → Observed
  | loc : LocatorPtr → Observed

/-- One accessor call in state-passing form: the C++ methods are `const` and
their bodies (Constraint.h lines 176-258) contain only reads, so each call is
embedded as the pair of its return value and the receiver object after the
call. -/
def callAccessor : Accessor → Constraint → Observed × Constraint
  | Accessor.getKind, c => (Observed.kind c.getKind, c)
  | Accessor.getClassification, c => (Observed.classif c.getClassification, c)
  | Accessor.getFirstType, c => (Observed.ty c.getFirstType, c)
  | Accessor.getSecondType, c => (Observed.ty c.getSecondType, c)
  | Accessor.getMember, c => (Observed.member c.getMember, c)
  | Accessor.getNestedConstraints, c => (Observed.nestedList c.getNestedConstraints, c)
  | Accessor.getOverloadChoice, c => (Observed.choice c.getOverloadChoice, c)
  | Accessor.getLocator, c => (Observed.loc c.getLocator, c)

/-!
Embedding of the lazy-map adapter of `src/unnamed/part_000` (`Map.swift.gyb`).
A Swift `IteratorProtocol` value is state plus a mutating `next`; here the
state is explicit: `next` maps a state to the optional element and the updated
state.  A Swift `Sequence` value is embedded as the iterator behavior paired
with the start state that its `makeIterator()` hands out.
-/

/-- A Swift `IteratorProtocol` over element type `α`, with explicit iterator
state `σ`: `next` returns the optional element and the mutated state. -/
structure SwiftIterator (σ α : Type) : Type where
  next : σ → Option α × σ

/-- A Swift `Sequence` over element type `α`: `makeIterator()` returns the
behavior `iter` started at `start`. -/
structure SwiftSequence (σ α : Type) : Type where
  iter : SwiftIterator σ α
  start : σ

/-- `LazyMapIterator` (part_000 lines 24-42): the `_base` iterator behavior and
the `_transform` function.  Its per-instance mutable state is the base
iterator's state `σ`. -/
structure LazyMapIterator (σ α β : Type) : Type where
  _base : SwiftIterator σ α
  _transform : α → β

/-- `LazyMapIterator.next` (part_000 lines 34-36):
`return _base.next().map(_transform)` — one call to the base's `next`, whose
optional result is mapped through the transform and whose state update is kept. -/
def LazyMapIterator.next {σ α β : Type} (it : LazyMapIterator σ α β) (s : σ) :
    Option β × σ :=
  match it._base.next s with
  | (o, s2) => (o.map it._transform, s2)

/-- The mapped iterator packaged back as a `SwiftIterator`, so it can be run
like any other iterator. -/
def LazyMapIterator.asIterator {σ α β : Type} (it : LazyMapIterator σ α β) :
    SwiftIterator σ β :=
  SwiftIterator.mk it.next

/-- `LazyMapSequence` (part_000 lines 48-77): the `_base` sequence and the
`_transform` function. -/
structure LazyMapSequence (σ α β : Type) : Type where
  _base : SwiftSequence σ α
  _transform : α → β

/-- `LazyMapSequence.makeIterator` (part_000 lines 56-58):
`return LazyMapIterator(_base: _base.makeIterator(), _transform: _transform)`
— the mapped iterator over the base's fresh iterator, with its start state. -/
def LazyMapSequence.makeIterator {σ α β : Type} (sq : LazyMapSequence σ α β) :
    LazyMapIterator σ α β × σ :=
  (LazyMapIterator.mk sq._base.iter sq._transform, sq._base.start)

/-- Run an iterator for at most `fuel` steps from state `s`, collecting the
elements it yields, in order, stopping at the first `none`. -/
def iterToList {σ α : Type} (it : SwiftIterator σ α) : Nat → σ → List α
  | 0, _ => []
  | Nat.succ n, s =>
    match it.next s with
    | (none, _) => []
    | (some x, s2) => x :: iterToList it n s2

/-- A sample base iterator for concrete runs: counts `s, s+1, s+2, ...` while
below 3, then is exhausted. -/
def upToThree : SwiftIterator Nat Nat :=
  SwiftIterator.mk (fun s => if s < 3 then (some s, s + 1) else (none, s))

/-- A sample transform for concrete runs. -/
def doubleFn : Nat → Nat := fun x => 2 * x

/-- A sample constraint used as a concrete group child in witnesses. -/
def sampleChild : Constraint := Constraint.mkBindOverload 7 4 (some 9)

/-- Auxiliary lemma for the lazy-map claim: running the mapped iterator for
`n` steps yields exactly the transform mapped over the base iterator's run. -/
theorem iterToList_asIterator_map {σ α β : Type} (base : SwiftIterator σ α)
    (f : α → β) :
    ∀ (n : Nat) (s : σ),
      iterToList (LazyMapIterator.asIterator (LazyMapIterator.mk base f)) n s =
        List.map f (iterToList base n s) := by
  intro n
  induction n with
  | zero => intro s; rfl
  | succ n ih =>
    intro s
    have hnext : (LazyMapIterator.asIterator (LazyMapIterator.mk base f)).next s =
        ((base.next s).1.map f, (base.next s).2) := by
      show LazyMapIterator.next (LazyMapIterator.mk base f) s = _
      unfold LazyMapIterator.next
      rcases base.next s with ⟨o, s2⟩
      rfl
    unfold iterToList
    rw [hnext]
    rcases base.next s with ⟨o, s2⟩
    cases o with
    | none => rfl
    | some x =>
      show f x :: iterToList (LazyMapIterator.asIterator
          (LazyMapIterator.mk base f)) n s2 =
        f x :: List.map f (iterToList base n s2)
      rw [ih s2]

/-- C1: `getClassification` is refuted as stated: at kind `Conjunction` the
source (Constraint.h line 203) returns `ConstraintClassification::Disjunction`
while the spec's §4.1 table says `Conjunction`; at every other kind the source
agrees with the table.  The source contradicts its own
`ConstraintClassification::Conjunction` enumerator, which is documented as "A
conjunction constraint" but never returned. -/
theorem classifyKind_conjunction_code_bug :
    Constraint.classifyKind ConstraintKind.Conjunction =
        ConstraintClassification.Disjunction ∧
    specTableClassification ConstraintKind.Conjunction =
        ConstraintClassification.Conjunction ∧
    ∀ kind : ConstraintKind,
      Constraint.classifyKind kind = specTableClassification kind ∨
        kind = ConstraintKind.Conjunction := by
  refine ⟨rfl, rfl, ?_⟩
  intro kind
  cases kind <;> first
    | exact Or.inl rfl
    | exact Or.inr rfl

/-- C2: on a `BindOverload` constraint, `getSecondType` does not assert — its
assertion only excludes `Disjunction` and `Conjunction` — and the method goes
on to read `Types.Second` out of a union whose active arm is `Overload`: an
undefined read rather than a fail-fast. -/
theorem getSecondType_bindOverload_no_assert :
    Constraint.getSecondType (Constraint.mkBindOverload 0 0 (some 0)) =
        AccessResult.undefinedRead ∧
    Constraint.getSecondType (Constraint.mkBindOverload 0 0 (some 0)) ≠
        AccessResult.assertionFailure := by
  exact ⟨rfl, by decide⟩

/-- C3: `createConjunction` and `createDisjunction` fail on an empty child
list, whatever the locator: neither ever yields a group constraint with zero
children. -/
theorem createGroup_empty_fails (loc : LocatorPtr) :
    Constraint.createConjunction [] loc = none ∧
    Constraint.createDisjunction [] loc = none :=
  ⟨rfl, rfl⟩

/-- C4: a group constraint built over a non-empty child list `cs`, with either
group kind, has exactly the kind it was constructed with and
`getNestedConstraints` returns exactly `cs`, in order. -/
theorem group_ctor_roundtrip (kind : ConstraintKind) (cs : List Constraint)
    (loc : LocatorPtr)
    (hk : kind = ConstraintKind.Conjunction ∨ kind = ConstraintKind.Disjunction)
    (hne : cs ≠ []) :
    ∃ c, Constraint.mkGroupCtor kind cs loc = some c ∧
      c.getKind = kind ∧
      c.getNestedConstraints = AccessResult.value cs := by
  refine ⟨Constraint.mk kind (PayloadOf.nested cs) loc, ?_, rfl, ?_⟩
  · unfold Constraint.mkGroupCtor
    rw [if_pos hk]
  · unfold Constraint.getNestedConstraints
    rcases hk with h | h <;> subst h <;> rfl

/-- C4 witness: the conjunction group over the one-element child list
`[sampleChild]` with locator `some 1`. -/
theorem group_ctor_roundtrip_witness :
    ∃ c, Constraint.mkGroupCtor ConstraintKind.Conjunction [sampleChild]
        (some 1) = some c ∧
      c.getKind = ConstraintKind.Conjunction ∧
      c.getNestedConstraints = AccessResult.value [sampleChild] :=
  group_ctor_roundtrip ConstraintKind.Conjunction [sampleChild] (some 1)
    (Or.inl rfl) (by simp)

/-- C5: `getMember` asserts on every constraint whose kind is neither
`ValueMember` nor `TypeMember`, and on a member constraint built by the atomic
constructor it returns exactly the stored member name. -/
theorem getMember_contract :
    (∀ c : Constraint,
      ¬(c.getKind = ConstraintKind.ValueMember ∨
          c.getKind = ConstraintKind.TypeMember) →
      c.getMember = AccessResult.assertionFailure) ∧
    (∀ (kind : ConstraintKind) (first second : SType) (m : Identifier)
        (loc : LocatorPtr) (c : Constraint),
      Constraint.mkAtomic kind first second m loc = some c →
      (kind = ConstraintKind.ValueMember ∨ kind = ConstraintKind.TypeMember) →
      c.getMember = AccessResult.value m) := by
  constructor
  · intro c h
    unfold Constraint.getMember
    rw [if_neg h]
  · intro kind first second m loc c hmk hk
    unfold Constraint.mkAtomic at hmk
    split at hmk
    · exact absurd hmk (by simp)
    · split at hmk
      · exact absurd hmk (by simp)
      · split at hmk
        · exact absurd hmk (by simp)
        · cases hmk
          rcases hk with hk | hk <;> subst hk <;> rfl

/-- C5 witness: `getMember` asserts on the `BindOverload` constraint
`sampleChild`, and returns the stored name on a concrete `ValueMember`
constraint built by the atomic constructor. -/
theorem getMember_contract_witness :
    Constraint.getMember sampleChild = AccessResult.assertionFailure ∧
    Constraint.getMember (Constraint.mk ConstraintKind.ValueMember
        (PayloadOf.types 1 2 "foo") (some 3)) = AccessResult.value "foo" :=
  ⟨getMember_contract.1 sampleChild (by decide),
   getMember_contract.2 ConstraintKind.ValueMember 1 2 "foo" (some 3) _ rfl
     (Or.inl rfl)⟩

/-- C6: the overload-binding constructor round trip: the constraint built from
`(t, choice, loc)` has kind `BindOverload`, `getFirstType` returns `t`,
`getOverloadChoice` returns `choice` and `getLocator` returns `loc`. -/
theorem bindOverload_roundtrip (t : SType) (ch : OverloadChoice)
    (loc : LocatorPtr) :
    (Constraint.mkBindOverload t ch loc).getKind = ConstraintKind.BindOverload ∧
    (Constraint.mkBindOverload t ch loc).getFirstType = AccessResult.value t ∧
    (Constraint.mkBindOverload t ch loc).getOverloadChoice =
        AccessResult.value ch ∧
    (Constraint.mkBindOverload t ch loc).getLocator = loc :=
  ⟨rfl, rfl, rfl, rfl⟩

/-- C7 counterexample: the inline `BindOverload` constructor (Constraint.h
lines 161-163) contains no assertion at all, so constructing a constraint with
a null locator succeeds, and `getLocator` then returns null. -/
theorem null_locator_accepted_cex :
    (Constraint.mkBindOverload 0 0 none).getLocator = none := rfl

/-- C7 amended: `getLocator` returns exactly the locator stored at
construction; the atomic constructor (modelled from the spec) asserts a
non-null locator, but the inline `BindOverload` and group constructors accept
any locator, including null, without a check. -/
theorem getLocator_stored :
    (∀ (t : SType) (ch : OverloadChoice) (loc : LocatorPtr),
      (Constraint.mkBindOverload t ch loc).getLocator = loc) ∧
    (∀ (kind : ConstraintKind) (cs : List Constraint) (loc : LocatorPtr)
        (c : Constraint),
      Constraint.mkGroupCtor kind cs loc = some c → c.getLocator = loc) ∧
    (∀ (kind : ConstraintKind) (f s : SType) (m : Identifier)
        (loc : LocatorPtr) (c : Constraint),
      Constraint.mkAtomic kind f s m loc = some c →
      c.getLocator = loc ∧ loc ≠ none) := by
  refine ⟨fun t ch loc => rfl, ?_, ?_⟩
  · intro kind cs loc c hmk
    unfold Constraint.mkGroupCtor at hmk
    split at hmk
    · cases hmk; rfl
    · exact absurd hmk (by simp)
  · intro kind f s m loc c hmk
    unfold Constraint.mkAtomic at hmk
    split at hmk
    · exact absurd hmk (by simp)
    · rename_i hloc
      split at hmk
      · exact absurd hmk (by simp)
      · rename_i hln
        split at hmk
        · exact absurd hmk (by simp)
        · cases hmk; exact ⟨rfl, hln⟩

/-- C7 amended-claim witness: concrete instances of all three constructors. -/
theorem getLocator_stored_witness :
    (Constraint.mkBindOverload 0 0 (some 2)).getLocator = some 2 ∧
    Constraint.getLocator (Constraint.mk ConstraintKind.Conjunction
        (PayloadOf.nested [sampleChild]) (some 3)) = some 3 ∧
    (Constraint.getLocator (Constraint.mk ConstraintKind.Bind
        (PayloadOf.types 1 2 "") (some 4)) = some 4 ∧
      (some 4 : LocatorPtr) ≠ none) :=
  ⟨getLocator_stored.1 0 0 (some 2),
   getLocator_stored.2.1 ConstraintKind.Conjunction [sampleChild] (some 3)
     _ rfl,
   getLocator_stored.2.2 ConstraintKind.Bind 1 2 "" (some 4) _ rfl⟩

/-- C8: every accessor call leaves the constraint unchanged, and repeating the
same accessor on the same constraint returns the same result — the embedding
of the fact that all eight methods are `const` and their bodies only read. -/
theorem accessors_no_mutation (a : Accessor) (c : Constraint) :
    (callAccessor a c).2 = c ∧
    callAccessor a (callAccessor a c).2 = callAccessor a c := by
  cases a <;> exact ⟨rfl, rfl⟩

/-- C9: `hasMember kind` is true exactly when `kind` is `ValueMember` or
`TypeMember`, and it is false exactly when `getMember` asserts — it
characterizes precisely the kinds on which `getMember` is permitted. -/
theorem hasMember_characterization :
    (∀ kind : ConstraintKind,
      Constraint.hasMember kind = true ↔
        (kind = ConstraintKind.ValueMember ∨
          kind = ConstraintKind.TypeMember)) ∧
    (∀ c : Constraint,
      Constraint.hasMember c.getKind = false ↔
        c.getMember = AccessResult.assertionFailure) := by
  constructor
  · intro kind
    cases kind <;> decide
  · intro c
    obtain ⟨k, p, l⟩ := c
    cases k <;> cases p <;>
      simp [Constraint.hasMember, Constraint.getMember, Constraint.getKind,
        Constraint.kindOf, Constraint.payloadOf, beq_iff_eq] <;>
      decide

/-- C9 witness: the characterization applied at the member kind `ValueMember`
and at the concrete non-member constraint `sampleChild`. -/
theorem hasMember_characterization_witness :
    Constraint.hasMember ConstraintKind.ValueMember = true ∧
    Constraint.getMember sampleChild = AccessResult.assertionFailure :=
  ⟨(hasMember_characterization.1 ConstraintKind.ValueMember).mpr (Or.inl rfl),
   (hasMember_characterization.2 sampleChild).mp (by decide)⟩

/-- C10: `LazyMapIterator.next` returns `none` exactly when the base's `next`
does, and otherwise the transform of the base's element; consequently the
iterator made by `LazyMapSequence.makeIterator` yields exactly the transforms
of the base sequence's elements, in the base's order, and nothing more. -/
theorem lazyMap_spec {σ α β : Type} (it : LazyMapIterator σ α β) (s : σ)
    (sq : LazyMapSequence σ α β) (n : Nat) :
    ((it.next s).1 = none ↔ (it._base.next s).1 = none) ∧
    (∀ x, (it._base.next s).1 = some x →
      (it.next s).1 = some (it._transform x)) ∧
    iterToList (LazyMapIterator.asIterator sq.makeIterator.1) n
        sq.makeIterator.2 =
      List.map sq._transform (iterToList sq._base.iter n sq._base.start) := by
  refine ⟨?_, ?_, ?_⟩
  · unfold LazyMapIterator.next
    rcases h : it._base.next s with ⟨o, s2⟩
    cases o <;> simp
  · intro x hx
    unfold LazyMapIterator.next
    rcases h : it._base.next s with ⟨o, s2⟩
    rw [h] at hx
    simp at hx
    simp [hx]
  · exact iterToList_asIterator_map sq._base.iter sq._transform n sq._base.start

/-- C10 witness: the lazy map of doubling over the iterator counting 0, 1, 2
yields 0, 2, 4 — mapping applied to each element in order — and the
element-wise clause at the first step. -/
theorem lazyMap_spec_witness :
    iterToList (LazyMapIterator.asIterator
        (LazyMapIterator.mk upToThree doubleFn)) 5 0 = [0, 2, 4] ∧
    iterToList upToThree 5 0 = [0, 1, 2] ∧
    (LazyMapIterator.next (LazyMapIterator.mk upToThree doubleFn) 0).1 =
      some (doubleFn 0) :=
  ⟨((lazyMap_spec (LazyMapIterator.mk upToThree doubleFn) 0
      (LazyMapSequence.mk (SwiftSequence.mk upToThree 0) doubleFn) 5).2.2).trans
        (by decide),
   by decide,
   (lazyMap_spec (LazyMapIterator.mk upToThree doubleFn) 0
      (LazyMapSequence.mk (SwiftSequence.mk upToThree 0) doubleFn) 5).2.1 0
        (by decide)⟩
